import Mathlib

/-!
PULSE: the `FileHandler` persistence interface

A shallow embedding of `include/system/filehandler.hpp` (namespace `PC3`):
the `Header` value object with its three constructors and its stream
insertion operator, followed by the matrix codec that the header file
declares.

An output stream is modelled by the text written to it so far (a `String`);
`os << x` appends the rendering of `x`.
-/

namespace PC3

/-- The scalar type `Type::real` comes from `cuda/typedef.cuh`, which is not
among the sources at hand, so it is a parameter of the development: its
carrier, the value of the literal `0`, its `operator!=` and the text that
`std::ostream << real` appends. -/
structure RealType where
  real : Type
  zero : real
  ne : real → real → Bool
  put : real → String

namespace FileHandler

/-- The struct `FileHandler::Header`, fields in declaration order. -/
structure Header (T : RealType) where
  L_x : T.real
  L_y : T.real
  dx : T.real
  dy : T.real
  t : T.real
  t0 : T.real
  freq : T.real
  sigma : T.real

/-- The default constructor `Header()`: every field is initialised with `0`. -/
def Header.Header0 (T : RealType) : Header T :=
  { L_x := T.zero, L_y := T.zero, dx := T.zero, dy := T.zero, t := T.zero,
    t0 := T.zero, freq := T.zero, sigma := T.zero }

/-- The five-argument constructor: delegates to `Header()`, then assigns the
five arguments and stores `0` in `t0`, `freq`, `sigma`. -/
def Header.Header5 (T : RealType) (L_x L_y dx dy t : T.real) : Header T :=
  let this := Header.Header0 T
  let this := { this with L_x := L_x }
  let this := { this with L_y := L_y }
  let this := { this with dx := dx }
  let this := { this with dy := dy }
  let this := { this with t := t }
  let this := { this with t0 := T.zero }
  let this := { this with freq := T.zero }
  let this := { this with sigma := T.zero }
  this

/-- The eight-argument constructor: delegates to `Header()`, then assigns
every argument to the field of the same name. -/
def Header.Header8 (T : RealType) (L_x L_y dx dy t t0 freq sigma : T.real) : Header T :=
  let this := Header.Header0 T
  let this := { this with L_x := L_x }
  let this := { this with L_y := L_y }
  let this := { this with dx := dx }
  let this := { this with dy := dy }
  let this := { this with t := t }
  let this := { this with t0 := t0 }
  let this := { this with freq := freq }
  let this := { this with sigma := sigma }
  this

/-- The friend `operator<<( std::ostream& os, const Header& header )`: the five
labelled fields are inserted, then the oscillator part under the guard
`header.t0 != 0 and header.freq != 0 and header.sigma != 0`; the stream is
returned. -/
def Header.operatorLtLt (T : RealType) (os : String) (header : Header T) : String :=
  let os := os ++ "LX " ++ T.put header.L_x ++ " LY " ++ T.put header.L_y ++ " DX " ++
    T.put header.dx ++ " DY " ++ T.put header.dy ++ " TIME " ++ T.put header.t
  let os :=
    if T.ne header.t0 T.zero && T.ne header.freq T.zero && T.ne header.sigma T.zero then
      os ++ " OSC T0 " ++ T.put header.t0 ++ " FREQ " ++ T.put header.freq ++ " SIGMA " ++
        T.put header.sigma
    else os
  os

/-- A concrete scalar type for evaluating the definitions: integers with their
decimal rendering. -/
@[reducible]
def intReal : RealType :=
  { real := Int, zero := 0, ne := fun a b => a != b, put := fun x => toString x }

/-- A second concrete scalar type, with a finite carrier: the decimal digits,
rendered as numerals. -/
@[reducible]
def digitReal : RealType :=
  { real := Fin 10, zero := 0, ne := fun a b => a != b, put := fun x => toString x.val }

/-! ## The matrix codec

`filehandler.hpp` only declares `outputMatrixToFile` and `loadMatrixFromFile`;
their bodies are in a translation unit that is not among the sources at hand.
The definitions of this section follow the specification of the codec
(sections 4.2 and 4.3). A grid buffer, passed in the code as a raw pointer, is
a function from offsets to samples; `Type::complex` is a pair (real part,
imaginary part).
-/

/-- Modelled from the spec: the loop of `outputMatrixToFile` (body missing)
over the indices "in `[start, stop)` stepping by `increment`". It visits `i`
while `i < stop` and continues with `i + increment`; `fuel` bounds the number
of iterations. -/
def strideLoop : Nat → Nat → Nat → Nat → List Nat
  | 0, _, _, _ => []
  | fuel + 1, i, stop, increment =>
    if i < stop then i :: strideLoop fuel (i + increment) stop increment else []

/-- Modelled from the spec: the indices visited by the loop of
`outputMatrixToFile` (body missing) from `start`; `stop - start` iterations
are enough as soon as `increment ≥ 1`, which the window descriptor requires. -/
def strideIndices (start stop increment : Nat) : List Nat :=
  strideLoop (stop - start) start stop increment

/-- Modelled from the spec: the samples that `outputMatrixToFile` (body
missing) emits, one list per emitted row: for each row index of the window
and each column index of the window, the sample at `buffer[row*N + col]`. -/
def windowSamples {S : Type} (buffer : Nat → S)
    (col_start col_stop row_start row_stop N increment : Nat) : List (List S) :=
  (strideIndices row_start row_stop increment).map fun row =>
    (strideIndices col_start col_stop increment).map fun col => buffer (row * N + col)

/-- Modelled from the spec: the numeric body written by `outputMatrixToFile`
(body missing): within a row the samples are separated by one space, rows are
separated by a line break, nothing follows the final row. -/
def matrixBody {S : Type} (putSample : S → List Char) (rows : List (List S)) : List Char :=
  List.intercalate ['\n'] (rows.map fun row => List.intercalate [' '] (row.map putSample))

/-- Modelled from the spec: the common part of the overloads of
`outputMatrixToFile` (bodies missing): the header line, a line break, then the
samples of the window. The result is the content of the stream `out`. -/
def writeMatrix {S : Type} (T : RealType) (putSample : S → List Char) (buffer : Nat → S)
    (col_start col_stop row_start row_stop N increment : Nat) (header : Header T)
    (out : String) : String :=
  let out := Header.operatorLtLt T out header
  let out := out ++ "\n"
  out ++ String.mk (matrixBody putSample
    (windowSamples buffer col_start col_stop row_start row_stop N increment))

/-- Modelled from the spec: the text of a real sample written by
`outputMatrixToFile` (body missing), one numeric token. -/
def putReal (T : RealType) (x : T.real) : List Char :=
  (T.put x).data

/-- Modelled from the spec: the text of a complex sample written by
`outputMatrixToFile` (body missing), the real part, one space, the imaginary
part. -/
def putComplex (T : RealType) (z : T.real × T.real) : List Char :=
  (T.put z.1).data ++ ' ' :: (T.put z.2).data

/-- Modelled from the spec: `outputMatrixToFile` (body missing) for a real
buffer with an explicit window, writing to an open stream. -/
def outputMatrixToFile_real_window (T : RealType) (buffer : Nat → T.real)
    (col_start col_stop row_start row_stop N increment : Nat) (header : Header T)
    (out : String) : String :=
  writeMatrix T (putReal T) buffer col_start col_stop row_start row_stop N increment header out

/-- Modelled from the spec: `outputMatrixToFile` (body missing) for a complex
buffer with an explicit window, writing to an open stream. -/
def outputMatrixToFile_complex_window (T : RealType) (buffer : Nat → T.real × T.real)
    (col_start col_stop row_start row_stop N increment : Nat) (header : Header T)
    (out : String) : String :=
  writeMatrix T (putComplex T) buffer col_start col_stop row_start row_stop N increment header
    out

/-- Modelled from the spec: `outputMatrixToFile` (body missing) for a real
buffer without a window, "equivalent to the full-grid, stride-1 window". -/
def outputMatrixToFile_real (T : RealType) (buffer : Nat → T.real) (N : Nat)
    (header : Header T) (out : String) : String :=
  outputMatrixToFile_real_window T buffer 0 N 0 N N 1 header out

/-- Modelled from the spec: `outputMatrixToFile` (body missing) for a complex
buffer without a window, "equivalent to the full-grid, stride-1 window". -/
def outputMatrixToFile_complex (T : RealType) (buffer : Nat → T.real × T.real) (N : Nat)
    (header : Header T) (out : String) : String :=
  outputMatrixToFile_complex_window T buffer 0 N 0 N N 1 header out

/-- Modelled from the spec: the characters that delimit the numeric tokens read
by `loadMatrixFromFile` (body missing): blanks and line breaks. -/
def isDelimiter (c : Char) : Bool :=
  c == ' ' || c == '\n' || c == '\t' || c == '\r'

/-- Modelled from the spec: the scan of `loadMatrixFromFile` (body missing)
for "whitespace/newline-delimited" tokens; `cur` holds the characters of the
token being read, last one first. -/
def tokensAux : List Char → List Char → List (List Char)
  | cur, [] => if cur.isEmpty then [] else [cur.reverse]
  | cur, c :: cs =>
    if isDelimiter c then
      if cur.isEmpty then tokensAux [] cs else cur.reverse :: tokensAux [] cs
    else tokensAux (c :: cur) cs

/-- Modelled from the spec: the delimited tokens of a text, in order, as
`loadMatrixFromFile` (body missing) reads them. -/
def tokens (text : List Char) : List (List Char) :=
  tokensAux [] text

/-- Modelled from the spec: `loadMatrixFromFile` (body missing) reads up to
`n` samples from the tokens; `readSample` consumes the tokens of one sample.
"Reading stops when buffer is full or input is exhausted"; a token that is
not a number ends the input. -/
def readSamples {S : Type} (readSample : List (List Char) → Option (S × List (List Char))) :
    Nat → List (List Char) → List S
  | 0, _ => []
  | n + 1, toks =>
    match readSample toks with
    | none => []
    | some (x, rest) => x :: readSamples readSample n rest

/-- Modelled from the spec: the common part of the overloads of
`loadMatrixFromFile` (bodies missing). `fs` gives the content of the readable
files. A missing file gives failure and the buffer as it was. Otherwise one
leading line is skipped when its first token is `LX`, the tokens that follow
are read into the first `N*N` places of the buffer, the places not reached
keep their values, and the result is success. The grid dimension `N` is
"known to the caller from simulation configuration". -/
def readMatrix {S : Type} (readSample : List (List Char) → Option (S × List (List Char)))
    (fs : String → Option String) (filepath : String) (N : Nat) (buffer : Nat → S) :
    Bool × (Nat → S) :=
  match fs filepath with
  | none => (false, buffer)
  | some content =>
    let line := content.data.takeWhile fun c => c != '\n'
    let body :=
      if (tokens line).head? = some ['L', 'X'] then
        (content.data.dropWhile fun c => c != '\n').tail
      else content.data
    let samples := readSamples readSample (N * N) (tokens body)
    (true, fun i => (samples.get? i).getD (buffer i))

/-- Modelled from the spec: `loadMatrixFromFile` (body missing) consumes "one
token per real sample"; `get` is the number-parsing routine. -/
def readReal (T : RealType) (get : List Char → Option T.real) :
    List (List Char) → Option (T.real × List (List Char))
  | [] => none
  | tok :: rest =>
    match get tok with
    | none => none
    | some x => some (x, rest)

/-- Modelled from the spec: `loadMatrixFromFile` (body missing) consumes "two
consecutive tokens (real, imaginary) per complex sample". -/
def readComplex (T : RealType) (get : List Char → Option T.real) :
    List (List Char) → Option ((T.real × T.real) × List (List Char))
  | re :: im :: rest =>
    match get re, get im with
    | some x, some y => some ((x, y), rest)
    | _, _ => none
  | _ => none

/-- Modelled from the spec: `loadMatrixFromFile` (body missing) for a real
buffer. -/
def loadMatrixFromFile_real (T : RealType) (get : List Char → Option T.real)
    (fs : String → Option String) (filepath : String) (N : Nat) (buffer : Nat → T.real) :
    Bool × (Nat → T.real) :=
  readMatrix (readReal T get) fs filepath N buffer

/-- Modelled from the spec: `loadMatrixFromFile` (body missing) for a complex
buffer. -/
def loadMatrixFromFile_complex (T : RealType) (get : List Char → Option T.real)
    (fs : String → Option String) (filepath : String) (N : Nat)
    (buffer : Nat → T.real × T.real) : Bool × (Nat → T.real × T.real) :=
  readMatrix (readComplex T get) fs filepath N buffer

/-- The number-parsing routine that goes with `digitReal`: one decimal digit. -/
def digitGet : List Char → Option digitReal.real
  | [c] => if '0' ≤ c ∧ c ≤ '9' then some (Fin.ofNat (c.toNat - 48)) else none
  | _ => none

/-- The 2×2 grid `[[1,2],[3,4]]` of the concrete scenarios, row-major. -/
def grid2x2 : Nat → digitReal.real :=
  fun i => ([1, 2, 3, 4] : List (Fin 10)).getD i 0

/-- The complex companion of `grid2x2`: sample `i` has real part `grid2x2 i`
and imaginary part `grid2x2 (i+1)`. -/
def zgrid2x2 : Nat → digitReal.real × digitReal.real :=
  fun i => (grid2x2 i, grid2x2 (i + 1))

/-- A file system holding the two files written from `grid2x2` and `zgrid2x2`
with the full-grid form of `outputMatrixToFile`, each to a fresh stream. -/
def files2x2 : String → Option String :=
  fun path =>
    if path = "real.txt" then
      some (outputMatrixToFile_real digitReal grid2x2 2 (Header.Header5 digitReal 1 1 5 5 0) "")
    else if path = "complex.txt" then
      some (outputMatrixToFile_complex digitReal zgrid2x2 2
        (Header.Header5 digitReal 1 1 5 5 0) "")
    else none

/-! ## The header: constructors and rendering -/

/-- Unfolding of `operator<<`: the text appended to the stream is the
five-token part, followed by the oscillator part exactly when the guard holds. -/
theorem Header.operatorLtLt_eq (T : RealType) (os : String) (h : Header T) :
    Header.operatorLtLt T os h =
      os ++ (("LX " ++ T.put h.L_x ++ " LY " ++ T.put h.L_y ++ " DX " ++ T.put h.dx ++
        " DY " ++ T.put h.dy ++ " TIME " ++ T.put h.t) ++
        (if T.ne h.t0 T.zero && T.ne h.freq T.zero && T.ne h.sigma T.zero then
          " OSC T0 " ++ T.put h.t0 ++ " FREQ " ++ T.put h.freq ++ " SIGMA " ++ T.put h.sigma
        else "")) := by
  unfold Header.operatorLtLt
  split <;> simp [String.append_assoc]

/-- Appending a non-empty text changes a text. -/
theorem append_ne_self (a b : String) (hb : b ≠ "") : a ++ b ≠ a := by
  intro h
  have hd := congrArg String.data h
  rw [String.data_append] at hd
  have hb2 : b.data = [] := by simpa using hd
  exact hb (String.ext hb2)

/-- C3: for every header, the text that `operator<<` writes begins with the
tokens `LX`, `LY`, `DX`, `DY`, `TIME` in this order, each followed by the
rendering of the matching field, single spaces in between. -/
theorem C3_header_begins_with_five_tokens (T : RealType) (os : String) (h : Header T) :
    ∃ rest : String, Header.operatorLtLt T os h =
      os ++ ("LX " ++ T.put h.L_x ++ " LY " ++ T.put h.L_y ++ " DX " ++ T.put h.dx ++
        " DY " ++ T.put h.dy ++ " TIME " ++ T.put h.t) ++ rest := by
  refine ⟨if T.ne h.t0 T.zero && T.ne h.freq T.zero && T.ne h.sigma T.zero then
      " OSC T0 " ++ T.put h.t0 ++ " FREQ " ++ T.put h.freq ++ " SIGMA " ++ T.put h.sigma
    else "", ?_⟩
  rw [Header.operatorLtLt_eq]
  simp only [String.append_assoc]

/-- C4: the five-argument constructor stores its arguments in `L_x`, `L_y`,
`dx`, `dy`, `t` and leaves `t0`, `freq`, `sigma` at zero. -/
theorem C4_header5_fields (T : RealType) (a b c d t : T.real) :
    (Header.Header5 T a b c d t).L_x = a ∧ (Header.Header5 T a b c d t).L_y = b ∧
    (Header.Header5 T a b c d t).dx = c ∧ (Header.Header5 T a b c d t).dy = d ∧
    (Header.Header5 T a b c d t).t = t ∧ (Header.Header5 T a b c d t).t0 = T.zero ∧
    (Header.Header5 T a b c d t).freq = T.zero ∧
    (Header.Header5 T a b c d t).sigma = T.zero :=
  ⟨rfl, rfl, rfl, rfl, rfl, rfl, rfl, rfl⟩

/-- C5: the eight-argument constructor stores every argument in the field of
the same name, without swap or loss. -/
theorem C5_header8_fields (T : RealType) (a b c d t t0 f s : T.real) :
    (Header.Header8 T a b c d t t0 f s).L_x = a ∧ (Header.Header8 T a b c d t t0 f s).L_y = b ∧
    (Header.Header8 T a b c d t t0 f s).dx = c ∧ (Header.Header8 T a b c d t t0 f s).dy = d ∧
    (Header.Header8 T a b c d t t0 f s).t = t ∧ (Header.Header8 T a b c d t t0 f s).t0 = t0 ∧
    (Header.Header8 T a b c d t t0 f s).freq = f ∧
    (Header.Header8 T a b c d t t0 f s).sigma = s :=
  ⟨rfl, rfl, rfl, rfl, rfl, rfl, rfl, rfl⟩

/-- C1, counterexample: with `t0 = 1` nonzero and `freq = sigma = 0` the guard
of `operator<<` fails, and the text stops after the `TIME` value instead of
carrying the oscillator clause. -/
theorem C1_counterexample_one_nonzero_field :
    intReal.ne (Header.Header8 intReal 1 1 2 2 0 1 0 0).t0 intReal.zero = true ∧
    Header.operatorLtLt intReal "" (Header.Header8 intReal 1 1 2 2 0 1 0 0) =
      "LX 1 LY 1 DX 2 DY 2 TIME 0" ∧
    Header.operatorLtLt intReal "" (Header.Header8 intReal 1 1 2 2 0 1 0 0) ≠
      "LX 1 LY 1 DX 2 DY 2 TIME 0" ++ " OSC T0 1 FREQ 0 SIGMA 0" := by
  decide

/-- C1, amended: when `t0`, `freq` and `sigma` are all three nonzero, the text
is the five-token prefix followed by the oscillator clause with all three
values. -/
theorem C1_osc_clause_when_all_nonzero (T : RealType) (os : String) (h : Header T)
    (h0 : T.ne h.t0 T.zero = true) (hf : T.ne h.freq T.zero = true)
    (hs : T.ne h.sigma T.zero = true) :
    Header.operatorLtLt T os h =
      os ++ ("LX " ++ T.put h.L_x ++ " LY " ++ T.put h.L_y ++ " DX " ++ T.put h.dx ++
        " DY " ++ T.put h.dy ++ " TIME " ++ T.put h.t) ++
        (" OSC T0 " ++ T.put h.t0 ++ " FREQ " ++ T.put h.freq ++ " SIGMA " ++ T.put h.sigma) := by
  rw [Header.operatorLtLt_eq]
  simp only [h0, hf, hs, Bool.and_self, if_true, String.append_assoc]

/-- Witness of C1 (amended) on the integer scalars. -/
theorem C1_osc_clause_when_all_nonzero_witness :
    intReal.ne (Header.Header8 intReal 1 1 2 2 0 1 5 (-3)).t0 intReal.zero = true ∧
    Header.operatorLtLt intReal "" (Header.Header8 intReal 1 1 2 2 0 1 5 (-3)) =
      "" ++ ("LX " ++ "1" ++ " LY " ++ "1" ++ " DX " ++ "2" ++ " DY " ++ "2" ++ " TIME " ++ "0") ++
        (" OSC T0 " ++ "1" ++ " FREQ " ++ "5" ++ " SIGMA " ++ "-3") :=
  ⟨by decide, C1_osc_clause_when_all_nonzero intReal "" (Header.Header8 intReal 1 1 2 2 0 1 5 (-3))
    (by decide) (by decide) (by decide)⟩

/-- C2: a header whose `t0`, `freq` and `sigma` all compare equal to zero is
rendered without oscillator clause: nothing follows the `TIME` value. -/
theorem C2_no_osc_clause_when_all_zero (T : RealType) (os : String) (h : Header T)
    (h0 : T.ne h.t0 T.zero = false) (hf : T.ne h.freq T.zero = false)
    (hs : T.ne h.sigma T.zero = false) :
    Header.operatorLtLt T os h =
      os ++ ("LX " ++ T.put h.L_x ++ " LY " ++ T.put h.L_y ++ " DX " ++ T.put h.dx ++
        " DY " ++ T.put h.dy ++ " TIME " ++ T.put h.t) := by
  rw [Header.operatorLtLt_eq]
  simp [h0, hf, hs]

/-- Witness of C2 on the integer scalars. -/
theorem C2_no_osc_clause_when_all_zero_witness :
    Header.operatorLtLt intReal "" (Header.Header8 intReal 3 4 1 1 7 0 0 0) =
      "" ++ ("LX " ++ "3" ++ " LY " ++ "4" ++ " DX " ++ "1" ++ " DY " ++ "1" ++ " TIME " ++ "7") :=
  C2_no_osc_clause_when_all_zero intReal "" (Header.Header8 intReal 3 4 1 1 7 0 0 0)
    (by decide) (by decide) (by decide)

/-- C9: `operator<<` appends the oscillator clause if and only if `t0`, `freq`
and `sigma` are all three nonzero; as soon as one of them is zero the text is
the five-token prefix ending with the `TIME` value. -/
theorem C9_osc_clause_iff_all_nonzero (T : RealType) (os : String) (h : Header T) :
    (Header.operatorLtLt T os h =
        os ++ ("LX " ++ T.put h.L_x ++ " LY " ++ T.put h.L_y ++ " DX " ++ T.put h.dx ++
          " DY " ++ T.put h.dy ++ " TIME " ++ T.put h.t) ++
          (" OSC T0 " ++ T.put h.t0 ++ " FREQ " ++ T.put h.freq ++ " SIGMA " ++ T.put h.sigma)
      ↔ (T.ne h.t0 T.zero = true ∧ T.ne h.freq T.zero = true ∧ T.ne h.sigma T.zero = true)) ∧
    (¬ (T.ne h.t0 T.zero = true ∧ T.ne h.freq T.zero = true ∧ T.ne h.sigma T.zero = true) →
      Header.operatorLtLt T os h =
        os ++ ("LX " ++ T.put h.L_x ++ " LY " ++ T.put h.L_y ++ " DX " ++ T.put h.dx ++
          " DY " ++ T.put h.dy ++ " TIME " ++ T.put h.t)) := by
  have hne : ∀ g : Bool, g = false → Header.operatorLtLt T os h =
        os ++ ("LX " ++ T.put h.L_x ++ " LY " ++ T.put h.L_y ++ " DX " ++ T.put h.dx ++
          " DY " ++ T.put h.dy ++ " TIME " ++ T.put h.t) →
      Header.operatorLtLt T os h ≠
        os ++ ("LX " ++ T.put h.L_x ++ " LY " ++ T.put h.L_y ++ " DX " ++ T.put h.dx ++
          " DY " ++ T.put h.dy ++ " TIME " ++ T.put h.t) ++
          (" OSC T0 " ++ T.put h.t0 ++ " FREQ " ++ T.put h.freq ++ " SIGMA " ++ T.put h.sigma) := by
    intro _ _ hp hq
    rw [hp] at hq
    refine append_ne_self _ _ ?_ hq.symm
    intro he
    have hl := congrArg String.length he
    simp only [String.length_append] at hl
    have : " OSC T0 ".length = 8 := by decide
    simp only [this, String.length_empty] at hl
    omega
  have hplain : ¬ (T.ne h.t0 T.zero = true ∧ T.ne h.freq T.zero = true ∧
      T.ne h.sigma T.zero = true) → Header.operatorLtLt T os h =
        os ++ ("LX " ++ T.put h.L_x ++ " LY " ++ T.put h.L_y ++ " DX " ++ T.put h.dx ++
          " DY " ++ T.put h.dy ++ " TIME " ++ T.put h.t) := by
    intro hn
    rw [Header.operatorLtLt_eq]
    have hg : (T.ne h.t0 T.zero && T.ne h.freq T.zero && T.ne h.sigma T.zero) = false := by
      cases h1 : T.ne h.t0 T.zero <;> cases h2 : T.ne h.freq T.zero <;>
        cases h3 : T.ne h.sigma T.zero <;> simp_all
    simp [hg]
  refine ⟨⟨fun heq => ?_, fun ⟨h0, hf, hs⟩ => ?_⟩, hplain⟩
  · by_contra hn
    exact hne false rfl (hplain hn) heq
  · rw [Header.operatorLtLt_eq]
    simp only [h0, hf, hs, Bool.and_self, if_true, String.append_assoc]

/-- C10: when `0 != 0` is false for the scalar type, the header built by the
five-argument constructor is rendered as `LX a LY b DX c DY d TIME t` with no
oscillator clause, the same text as for the eight-argument constructor called
with three zeros. -/
theorem C10_header5_renders_without_osc (T : RealType) (os : String) (a b c d t : T.real)
    (hz : T.ne T.zero T.zero = false) :
    Header.operatorLtLt T os (Header.Header5 T a b c d t) =
      os ++ ("LX " ++ T.put a ++ " LY " ++ T.put b ++ " DX " ++ T.put c ++ " DY " ++ T.put d ++
        " TIME " ++ T.put t) ∧
    Header.operatorLtLt T os (Header.Header5 T a b c d t) =
      Header.operatorLtLt T os (Header.Header8 T a b c d t T.zero T.zero T.zero) := by
  refine ⟨?_, rfl⟩
  rw [Header.operatorLtLt_eq]
  simp [Header.Header5, Header.Header0, hz]

/-- Witness of C10 on the integer scalars. -/
theorem C10_header5_renders_without_osc_witness :
    Header.operatorLtLt intReal "" (Header.Header5 intReal 3 4 1 1 7) =
      "" ++ ("LX " ++ "3" ++ " LY " ++ "4" ++ " DX " ++ "1" ++ " DY " ++ "1" ++ " TIME " ++ "7") ∧
    Header.operatorLtLt intReal "" (Header.Header5 intReal 3 4 1 1 7) =
      Header.operatorLtLt intReal "" (Header.Header8 intReal 3 4 1 1 7 0 0 0) :=
  C10_header5_renders_without_osc intReal "" 3 4 1 1 7 (by decide)

/-- The text written by `operator<<` has no line break when neither the stream
content before it nor the rendering of any of the eight fields has one. -/
theorem Header.operatorLtLt_no_newline (T : RealType) (os : String) (h : Header T)
    (hos : '\n' ∉ os.data)
    (h1 : '\n' ∉ (T.put h.L_x).data) (h2 : '\n' ∉ (T.put h.L_y).data)
    (h3 : '\n' ∉ (T.put h.dx).data) (h4 : '\n' ∉ (T.put h.dy).data)
    (h5 : '\n' ∉ (T.put h.t).data) (h6 : '\n' ∉ (T.put h.t0).data)
    (h7 : '\n' ∉ (T.put h.freq).data) (h8 : '\n' ∉ (T.put h.sigma).data) :
    '\n' ∉ (Header.operatorLtLt T os h).data := by
  have e1 : '\n' ∉ "LX ".data := by decide
  have e2 : '\n' ∉ " LY ".data := by decide
  have e3 : '\n' ∉ " DX ".data := by decide
  have e4 : '\n' ∉ " DY ".data := by decide
  have e5 : '\n' ∉ " TIME ".data := by decide
  have e6 : '\n' ∉ " OSC T0 ".data := by decide
  have e7 : '\n' ∉ " FREQ ".data := by decide
  have e8 : '\n' ∉ " SIGMA ".data := by decide
  have e9 : '\n' ∉ "".data := by decide
  rw [Header.operatorLtLt_eq]
  split <;>
    simp only [String.data_append, List.mem_append, not_or] <;>
    simp only [hos, h1, h2, h3, h4, h5, h6, h7, h8, e1, e2, e3, e4, e5, e6, e7, e8, e9,
      not_false_eq_true, and_self]

/-- C6: provided the number-rendering routine never emits a line break, the
text that `operator<<` writes for a header contains no line-break character,
with or without the oscillator clause. -/
theorem C6_header_single_line (T : RealType) (h : Header T)
    (hput : ∀ x : T.real, '\n' ∉ (T.put x).data) :
    '\n' ∉ (Header.operatorLtLt T "" h).data :=
  Header.operatorLtLt_no_newline T "" h (by decide) (hput _) (hput _) (hput _) (hput _)
    (hput _) (hput _) (hput _) (hput _)

/-- Witness of C6 on the digit scalars, for a header with oscillator clause. -/
theorem C6_header_single_line_witness :
    (∀ x : digitReal.real, '\n' ∉ (digitReal.put x).data) ∧
    '\n' ∉ (Header.operatorLtLt digitReal "" (Header.Header8 digitReal 3 4 1 1 7 2 5 9)).data :=
  ⟨by decide, C6_header_single_line digitReal (Header.Header8 digitReal 3 4 1 1 7 2 5 9)
    (by decide)⟩

/-! ## The matrix codec: the window -/

/-- Number of steps of a strided loop: one more step when there is something
left to visit. -/
theorem stride_count_succ (d increment : Nat) (hd : 0 < d) (hinc : 1 ≤ increment) :
    (d + increment - 1) / increment = (d - increment + increment - 1) / increment + 1 := by
  rcases Nat.lt_or_ge d increment with h | h
  · have h1 : d - increment = 0 := by omega
    have h2 : (d + increment - 1) / increment = 1 := by
      have e : d + increment - 1 = (d - 1) + increment := by omega
      rw [e, Nat.add_div_right _ (by omega), Nat.div_eq_of_lt (by omega)]
    have h3 : (increment - 1) / increment = 0 := Nat.div_eq_of_lt (by omega)
    rw [h2, h1, Nat.zero_add, h3]
  · have e1 : d + increment - 1 = (d - 1) + increment := by omega
    have e2 : d - increment + increment - 1 = d - 1 := by omega
    rw [e1, e2, Nat.add_div_right _ (by omega)]

/-- With an increment of at least one and enough fuel, the strided loop visits
`i`, `i + increment`, ... below `stop`: as many indices as the rounded-up
quotient of `stop - i` by `increment`. -/
theorem strideLoop_eq (increment stop : Nat) (hinc : 1 ≤ increment) :
    ∀ (fuel i : Nat), stop - i ≤ fuel →
      strideLoop fuel i stop increment =
        (List.range ((stop - i + increment - 1) / increment)).map fun k => i + k * increment := by
  intro fuel
  induction fuel with
  | zero =>
    intro i hf
    have h0 : stop - i = 0 := by omega
    have h1 : (stop - i + increment - 1) / increment = 0 := by
      rw [h0, Nat.zero_add]
      exact Nat.div_eq_of_lt (by omega)
    rw [h1]
    rfl
  | succ fuel ih =>
    intro i hf
    unfold strideLoop
    by_cases hlt : i < stop
    · rw [if_pos hlt, ih (i + increment) (by omega)]
      rw [stride_count_succ (stop - i) increment (by omega) hinc, List.range_succ_eq_map]
      have e : stop - (i + increment) = stop - i - increment := by omega
      rw [e]
      simp only [List.map_cons, List.map_map, Nat.zero_mul, Nat.add_zero]
      congr 1
      apply List.map_congr_left
      intro k _
      simp only [Function.comp, Nat.succ_eq_add_one, Nat.add_mul, Nat.one_mul]
      omega
    · rw [if_neg hlt]
      have h0 : stop - i = 0 := by omega
      have h1 : (stop - i + increment - 1) / increment = 0 := by
        rw [h0, Nat.zero_add]
        exact Nat.div_eq_of_lt (by omega)
      rw [h1]
      rfl

/-- The indices of a window axis, in closed form. -/
theorem strideIndices_eq (start stop increment : Nat) (hinc : 1 ≤ increment) :
    strideIndices start stop increment =
      (List.range ((stop - start + increment - 1) / increment)).map
        fun k => start + k * increment :=
  strideLoop_eq increment stop hinc (stop - start) start (Nat.le_refl _)

/-- The rounded-up quotient of the window length by the increment, computed on
the naturals. -/
theorem ceil_window_div (start stop increment : Nat) (hle : start ≤ stop)
    (hinc : 1 ≤ increment) :
    ⌈((stop : ℚ) - start) / increment⌉₊ = (stop - start + increment - 1) / increment := by
  have hpos : (0 : ℚ) < increment := by exact_mod_cast hinc
  have hcast : ((stop : ℚ) - start) = ((stop - start : ℕ) : ℚ) := by
    rw [Nat.cast_sub hle]
  rw [hcast]
  generalize stop - start = d
  apply le_antisymm
  · rw [Nat.ceil_le, div_le_iff₀ hpos]
    have h := Nat.lt_div_mul_add (a := d + increment - 1) (b := increment) (by omega)
    have h2 : d ≤ (d + increment - 1) / increment * increment := by omega
    exact_mod_cast h2
  · have hc : (d : ℚ) / increment ≤ (⌈(d : ℚ) / increment⌉₊ : ℚ) := Nat.le_ceil _
    rw [div_le_iff₀ hpos] at hc
    have hc2 : d ≤ ⌈(d : ℚ) / increment⌉₊ * increment := by exact_mod_cast hc
    have hlt : d + increment - 1 < (⌈(d : ℚ) / increment⌉₊ + 1) * increment := by
      rw [Nat.add_mul, Nat.one_mul]
      omega
    exact Nat.lt_succ_iff.mp ((Nat.div_lt_iff_lt_mul (by omega)).mpr hlt)

/-- An index below the rounded-up quotient gives a position inside the window. -/
theorem stride_index_lt (start stop increment k : Nat) (hinc : 1 ≤ increment)
    (hk : k < (stop - start + increment - 1) / increment) :
    start + k * increment < stop := by
  have h1 : (k + 1) * increment ≤ stop - start + increment - 1 :=
    Nat.le_trans (Nat.mul_le_mul_right _ hk) (Nat.div_mul_le_self _ _)
  rw [Nat.add_mul, Nat.one_mul] at h1
  omega

/-- The samples of a window, in closed form: row `r0 + i*inc`, column
`c0 + j*inc`, for `i` and `j` below the rounded-up quotients. -/
theorem windowSamples_eq {S : Type} (buffer : Nat → S) (c0 c1 r0 r1 N inc : Nat)
    (hc : c0 ≤ c1) (hr : r0 ≤ r1) (hinc : 1 ≤ inc) :
    windowSamples buffer c0 c1 r0 r1 N inc =
      (List.range ⌈((r1 : ℚ) - r0) / inc⌉₊).map fun i =>
        (List.range ⌈((c1 : ℚ) - c0) / inc⌉₊).map fun j =>
          buffer ((r0 + i * inc) * N + (c0 + j * inc)) := by
  unfold windowSamples
  rw [strideIndices_eq r0 r1 inc hinc, strideIndices_eq c0 c1 inc hinc,
    ceil_window_div r0 r1 inc hr hinc, ceil_window_div c0 c1 inc hc hinc]
  simp only [List.map_map]
  rfl

/-- C7: for a window with `0 ≤ c0 < c1 ≤ N`, `0 ≤ r0 < r1 ≤ N` and `inc ≥ 1`,
`outputMatrixToFile` writes the header line and then exactly
`ceil((r1-r0)/inc) * ceil((c1-c0)/inc)` samples: the sample of row
`r0 + i*inc` and column `c0 + j*inc` is `buffer[row*N + col]`, rows in order
and, within a row, columns in order; every sample read lies inside the
`N*N` buffer. This holds for the real and for the complex buffer. -/
theorem C7_window_samples (T : RealType) (N c0 c1 r0 r1 inc : Nat)
    (buffer : Nat → T.real) (zbuffer : Nat → T.real × T.real) (header : Header T)
    (out : String)
    (hc0 : c0 < c1) (hc1 : c1 ≤ N) (hr0 : r0 < r1) (hr1 : r1 ≤ N) (hinc : 1 ≤ inc) :
    outputMatrixToFile_real_window T buffer c0 c1 r0 r1 N inc header out =
      Header.operatorLtLt T out header ++ "\n" ++ String.mk (matrixBody (putReal T)
        ((List.range ⌈((r1 : ℚ) - r0) / inc⌉₊).map fun i =>
          (List.range ⌈((c1 : ℚ) - c0) / inc⌉₊).map fun j =>
            buffer ((r0 + i * inc) * N + (c0 + j * inc)))) ∧
    outputMatrixToFile_complex_window T zbuffer c0 c1 r0 r1 N inc header out =
      Header.operatorLtLt T out header ++ "\n" ++ String.mk (matrixBody (putComplex T)
        ((List.range ⌈((r1 : ℚ) - r0) / inc⌉₊).map fun i =>
          (List.range ⌈((c1 : ℚ) - c0) / inc⌉₊).map fun j =>
            zbuffer ((r0 + i * inc) * N + (c0 + j * inc)))) ∧
    (windowSamples buffer c0 c1 r0 r1 N inc).flatten =
      ((List.range ⌈((r1 : ℚ) - r0) / inc⌉₊).flatMap fun i =>
        (List.range ⌈((c1 : ℚ) - c0) / inc⌉₊).map fun j =>
          buffer ((r0 + i * inc) * N + (c0 + j * inc))) ∧
    (windowSamples zbuffer c0 c1 r0 r1 N inc).flatten =
      ((List.range ⌈((r1 : ℚ) - r0) / inc⌉₊).flatMap fun i =>
        (List.range ⌈((c1 : ℚ) - c0) / inc⌉₊).map fun j =>
          zbuffer ((r0 + i * inc) * N + (c0 + j * inc))) ∧
    (windowSamples buffer c0 c1 r0 r1 N inc).flatten.length =
      ⌈((r1 : ℚ) - r0) / inc⌉₊ * ⌈((c1 : ℚ) - c0) / inc⌉₊ ∧
    (windowSamples zbuffer c0 c1 r0 r1 N inc).flatten.length =
      ⌈((r1 : ℚ) - r0) / inc⌉₊ * ⌈((c1 : ℚ) - c0) / inc⌉₊ ∧
    ∀ i j : Nat, i < ⌈((r1 : ℚ) - r0) / inc⌉₊ → j < ⌈((c1 : ℚ) - c0) / inc⌉₊ →
      r0 + i * inc < r1 ∧ c0 + j * inc < c1 ∧
        (r0 + i * inc) * N + (c0 + j * inc) < N * N := by
  have hflat : ∀ {S : Type} (buf : Nat → S),
      (windowSamples buf c0 c1 r0 r1 N inc).flatten =
        (List.range ⌈((r1 : ℚ) - r0) / inc⌉₊).flatMap fun i =>
          (List.range ⌈((c1 : ℚ) - c0) / inc⌉₊).map fun j =>
            buf ((r0 + i * inc) * N + (c0 + j * inc)) := by
    intro S buf
    rw [windowSamples_eq buf c0 c1 r0 r1 N inc (by omega) (by omega) hinc, List.flatMap_def]
  have hlen : ∀ {S : Type} (buf : Nat → S),
      (windowSamples buf c0 c1 r0 r1 N inc).flatten.length =
        ⌈((r1 : ℚ) - r0) / inc⌉₊ * ⌈((c1 : ℚ) - c0) / inc⌉₊ := by
    intro S buf
    rw [windowSamples_eq buf c0 c1 r0 r1 N inc (by omega) (by omega) hinc]
    simp [List.length_flatten, Function.comp_def]
  refine ⟨?_, ?_, hflat buffer, hflat zbuffer, hlen buffer, hlen zbuffer, ?_⟩
  · unfold outputMatrixToFile_real_window writeMatrix
    rw [windowSamples_eq buffer c0 c1 r0 r1 N inc (by omega) (by omega) hinc]
  · unfold outputMatrixToFile_complex_window writeMatrix
    rw [windowSamples_eq zbuffer c0 c1 r0 r1 N inc (by omega) (by omega) hinc]
  · intro i j hi hj
    rw [ceil_window_div r0 r1 inc (by omega) hinc] at hi
    rw [ceil_window_div c0 c1 inc (by omega) hinc] at hj
    have hrow := stride_index_lt r0 r1 inc i hinc hi
    have hcol := stride_index_lt c0 c1 inc j hinc hj
    refine ⟨hrow, hcol, ?_⟩
    have h1 : (r0 + i * inc + 1) * N ≤ N * N := Nat.mul_le_mul_right N (by omega)
    rw [Nat.add_mul, Nat.one_mul] at h1
    omega

/-- Witness of C7: the 2×2 grid `[[1,2],[3,4]]` with the window `(0,2,0,2,2)`;
only the sample `1` is emitted. -/
theorem C7_window_samples_witness :
    windowSamples grid2x2 0 2 0 2 2 2 = [[1]] ∧
    outputMatrixToFile_real_window digitReal grid2x2 0 2 0 2 2 2
      (Header.Header5 digitReal 1 1 5 5 0) "" = "LX 1 LY 1 DX 5 DY 5 TIME 0\n1" ∧
    (windowSamples grid2x2 0 2 0 2 2 2).flatten.length =
      ⌈(((2 : ℕ) : ℚ) - (0 : ℕ)) / (2 : ℕ)⌉₊ * ⌈(((2 : ℕ) : ℚ) - (0 : ℕ)) / (2 : ℕ)⌉₊ :=
  ⟨by decide, by decide,
    (C7_window_samples digitReal 2 0 2 0 2 2 grid2x2 (fun i => (grid2x2 i, grid2x2 i))
      (Header.Header5 digitReal 1 1 5 5 0) "" (by decide) (by decide) (by decide) (by decide)
      (by decide)).2.2.2.2.1⟩

/-! ## The matrix codec: writing, then loading -/

/-- A delimiter ends the token being read; what follows is scanned afresh. -/
theorem tokensAux_append_delimiter (sep : Char) (hsep : isDelimiter sep = true)
    (b : List Char) :
    ∀ (a cur : List Char), tokensAux cur (a ++ sep :: b) = tokensAux cur a ++ tokens b := by
  intro a
  induction a with
  | nil =>
    intro cur
    simp only [List.nil_append, tokensAux, hsep, if_true]
    by_cases hc : cur.isEmpty = true
    · simp [hc, tokens]
    · simp [hc, tokens]
  | cons c a ih =>
    intro cur
    simp only [List.cons_append, tokensAux]
    by_cases hd : isDelimiter c = true
    · simp only [hd, if_true]
      by_cases hc : cur.isEmpty = true
      · simp only [hc, if_true]
        exact ih []
      · simp only [hc]
        simp only [Bool.false_eq_true, if_false, List.cons_append]
        exact congrArg (List.cons cur.reverse) (ih [])
    · simp only [hd]
      exact ih (c :: cur)

/-- Tokens on the two sides of a delimiter. -/
theorem tokens_append_delimiter (sep : Char) (hsep : isDelimiter sep = true)
    (a b : List Char) : tokens (a ++ sep :: b) = tokens a ++ tokens b :=
  tokensAux_append_delimiter sep hsep b a []

/-- A run of characters without delimiter extends the token being read. -/
theorem tokensAux_word :
    ∀ (w cur : List Char), (∀ c ∈ w, isDelimiter c = false) → (cur ++ w ≠ []) →
      tokensAux cur w = [cur.reverse ++ w] := by
  intro w
  induction w with
  | nil =>
    intro cur _ hne
    have hc : cur.isEmpty = false := by
      cases cur with
      | nil => simp at hne
      | cons _ _ => rfl
    simp [tokensAux, hc]
  | cons c w ih =>
    intro cur hw _
    have hd : isDelimiter c = false := hw c (List.mem_cons_self _ _)
    simp only [tokensAux, hd, Bool.false_eq_true, if_false]
    rw [ih (c :: cur) (fun x hx => hw x (List.mem_cons_of_mem _ hx)) (by simp)]
    simp

/-- A non-empty text without delimiter is one token. -/
theorem tokens_word (w : List Char) (hw : ∀ c ∈ w, isDelimiter c = false) (hne : w ≠ []) :
    tokens w = [w] := by
  have h := tokensAux_word w [] hw (by simpa using hne)
  simpa [tokens] using h

/-- Tokens of texts joined by a delimiter: the tokens of each text, in order. -/
theorem tokens_intercalate (sep : Char) (hsep : isDelimiter sep = true) :
    ∀ xs : List (List Char), tokens (List.intercalate [sep] xs) = xs.flatMap tokens := by
  intro xs
  induction xs with
  | nil => rfl
  | cons x xs ih =>
    cases xs with
    | nil => simp [List.intercalate, List.intersperse]
    | cons y ys =>
      have e : List.intercalate [sep] (x :: y :: ys) =
          x ++ sep :: List.intercalate [sep] (y :: ys) := by
        simp [List.intercalate, List.intersperse]
      rw [e, tokens_append_delimiter sep hsep, ih]
      simp only [List.flatMap_cons]

/-- Tokens of the numeric body: the tokens of every sample, rows in order. -/
theorem tokens_matrixBody {S : Type} (putSample : S → List Char) (rows : List (List S)) :
    tokens (matrixBody putSample rows) = rows.flatten.flatMap fun x => tokens (putSample x) := by
  unfold matrixBody
  rw [tokens_intercalate '\n' (by decide)]
  induction rows with
  | nil => rfl
  | cons r rows ih =>
    rw [List.map_cons, List.flatMap_cons, ih, List.flatten_cons, List.flatMap_append,
      tokens_intercalate ' ' (by decide), List.flatMap_map]

/-- Reading as many samples as were written gives them back, each through
the map `f` that `readSample` computes on the tokens of a sample. -/
theorem readSamples_flatMap {S : Type}
    (readSample : List (List Char) → Option (S × List (List Char)))
    (toks : S → List (List Char)) (f : S → S)
    (hread : ∀ x rest, readSample (toks x ++ rest) = some (f x, rest)) :
    ∀ (xs : List S) (rest : List (List Char)),
      readSamples readSample xs.length (xs.flatMap toks ++ rest) = xs.map f := by
  intro xs
  induction xs with
  | nil => intro rest; rfl
  | cons x xs ih =>
    intro rest
    rw [List.flatMap_cons, List.append_assoc, List.length_cons]
    simp only [readSamples, hread, List.map_cons]
    rw [ih]

/-- The samples of the first `M` rows of the full grid are the first `M*N`
samples of the buffer. -/
theorem full_rows_flatten {S : Type} (g : Nat → S) (N : Nat) :
    ∀ M : Nat, ((List.range M).map fun r => (List.range N).map fun c => g (r * N + c)).flatten =
      (List.range (M * N)).map g := by
  intro M
  induction M with
  | zero => simp
  | succ M ih =>
    rw [List.range_succ, List.map_append, List.flatten_append, ih, Nat.add_mul, Nat.one_mul,
      List.range_add, List.map_append]
    simp [Function.comp_def]

/-- The samples of the full-grid, stride-1 window are the `N*N` samples of the
buffer, in order. -/
theorem windowSamples_full {S : Type} (buffer : Nat → S) (N : Nat) :
    (windowSamples buffer 0 N 0 N N 1).flatten = (List.range (N * N)).map buffer := by
  unfold windowSamples
  rw [strideIndices_eq 0 N 1 (Nat.le_refl 1)]
  simp only [Nat.sub_zero, Nat.add_sub_cancel, Nat.div_one, Nat.zero_add, Nat.mul_one,
    List.map_id']
  exact full_rows_flatten buffer N N

/-- Splitting at the first line break: the line before it and what follows. -/
theorem split_first_line (b : List Char) :
    ∀ a : List Char, '\n' ∉ a →
      ((a ++ '\n' :: b).takeWhile fun c => c != '\n') = a ∧
      ((a ++ '\n' :: b).dropWhile fun c => c != '\n').tail = b := by
  intro a
  induction a with
  | nil => intro _; simp [List.takeWhile, List.dropWhile]
  | cons c a ih =>
    intro hc
    have hne : c ≠ '\n' := fun h => hc (h ▸ List.mem_cons_self _ _)
    have hrest : '\n' ∉ a := fun h => hc (List.mem_cons_of_mem _ h)
    have hb : (c != '\n') = true := by simpa using hne
    obtain ⟨h1, h2⟩ := ih hrest
    constructor
    · rw [List.cons_append, List.takeWhile_cons]
      simp only [hb, if_true, h1]
    · rw [List.cons_append, List.dropWhile_cons]
      simp only [hb, if_true, h2]

/-- The first token of a rendered header is `LX`. -/
theorem header_first_token (T : RealType) (h : Header T) :
    (tokens (Header.operatorLtLt T "" h).data).head? = some ['L', 'X'] := by
  rw [Header.operatorLtLt_eq]
  simp only [String.data_append, List.append_assoc]
  generalize (T.put h.L_x).data ++ _ = rest
  change (tokens (['L', 'X'] ++ ' ' :: rest)).head? = some ['L', 'X']
  rw [tokens_append_delimiter ' ' (by decide)]
  rfl

/-- Writing the full grid to a fresh file and loading that file: the load
succeeds, the first `N*N` places of the buffer hold the samples read back
from the text of the written ones, the other places are untouched. -/
theorem readMatrix_writeMatrix {S : Type} (T : RealType) (putSample : S → List Char)
    (readSample : List (List Char) → Option (S × List (List Char)))
    (toks : S → List (List Char)) (f : S → S)
    (htok : ∀ x, tokens (putSample x) = toks x)
    (hread : ∀ x rest, readSample (toks x ++ rest) = some (f x, rest))
    (hput : ∀ x : T.real, '\n' ∉ (T.put x).data)
    (N : Nat) (buffer : Nat → S) (header : Header T) (fs : String → Option String)
    (filepath : String) (dest : Nat → S)
    (hfile : fs filepath = some (writeMatrix T putSample buffer 0 N 0 N N 1 header "")) :
    (readMatrix readSample fs filepath N dest).1 = true ∧
    ∀ i : Nat, (readMatrix readSample fs filepath N dest).2 i =
      if i < N * N then f (buffer i) else dest i := by
  have hnl : '\n' ∉ (Header.operatorLtLt T "" header).data :=
    Header.operatorLtLt_no_newline T "" header (by decide) (hput _) (hput _) (hput _) (hput _)
      (hput _) (hput _) (hput _) (hput _)
  have hdata : (writeMatrix T putSample buffer 0 N 0 N N 1 header "").data =
      (Header.operatorLtLt T "" header).data ++
        '\n' :: matrixBody putSample (windowSamples buffer 0 N 0 N N 1) := by
    simp only [writeMatrix, String.data_append, List.append_assoc]
    rfl
  obtain ⟨hline, hbody⟩ := split_first_line
    (matrixBody putSample (windowSamples buffer 0 N 0 N N 1)) _ hnl
  have hsamples : readSamples readSample (N * N)
      (tokens (matrixBody putSample (windowSamples buffer 0 N 0 N N 1))) =
        ((List.range (N * N)).map buffer).map f := by
    rw [tokens_matrixBody, windowSamples_full]
    have hfun : (fun x => tokens (putSample x)) = toks := funext htok
    rw [hfun]
    have h := readSamples_flatMap readSample toks f hread ((List.range (N * N)).map buffer) []
    simpa using h
  unfold readMatrix
  rw [hfile]
  simp only [hdata, hline, hbody, header_first_token, if_true, hsamples]
  refine ⟨trivial, fun i => ?_⟩
  by_cases hi : i < N * N
  · simp [hi, List.getElem?_range]
  · simp [hi]
    have : ((List.range (N * N))[i]?) = none := by
      simp; omega
    simp [this]

/-- C8: for every `N`, writing a real or a complex buffer of `N*N` samples
with the full-grid stride-1 form of `outputMatrixToFile` to a fresh file and
reading that file with `loadMatrixFromFile` succeeds, and every place below
`N*N` of the loaded buffer holds the sample of the same place of the original
buffer after formatting and parsing (`rt`), hence a value `close` to it; the
header line is skipped. The formatting routine is assumed to write non-empty
numbers without blanks or line breaks, which the parsing routine reads back. -/
theorem C8_write_then_load (T : RealType) (get : List Char → Option T.real)
    (rt : T.real → T.real) (close : T.real → T.real → Prop) (N : Nat)
    (buffer : Nat → T.real) (zbuffer : Nat → T.real × T.real) (header : Header T)
    (fs : String → Option String) (filepath zfilepath : String)
    (dest : Nat → T.real) (zdest : Nat → T.real × T.real)
    (hput : ∀ x : T.real, (T.put x).data ≠ [] ∧ ∀ c ∈ (T.put x).data, isDelimiter c = false)
    (hget : ∀ x : T.real, get (T.put x).data = some (rt x))
    (hclose : ∀ x : T.real, close x (rt x))
    (hfile : fs filepath = some (outputMatrixToFile_real T buffer N header ""))
    (hzfile : fs zfilepath = some (outputMatrixToFile_complex T zbuffer N header "")) :
    ((loadMatrixFromFile_real T get fs filepath N dest).1 = true ∧
      ∀ i : Nat, i < N * N →
        (loadMatrixFromFile_real T get fs filepath N dest).2 i = rt (buffer i) ∧
        close (buffer i) ((loadMatrixFromFile_real T get fs filepath N dest).2 i)) ∧
    ((loadMatrixFromFile_complex T get fs zfilepath N zdest).1 = true ∧
      ∀ i : Nat, i < N * N →
        (loadMatrixFromFile_complex T get fs zfilepath N zdest).2 i =
          (rt (zbuffer i).1, rt (zbuffer i).2) ∧
        close (zbuffer i).1 ((loadMatrixFromFile_complex T get fs zfilepath N zdest).2 i).1 ∧
        close (zbuffer i).2 ((loadMatrixFromFile_complex T get fs zfilepath N zdest).2 i).2) := by
  have hnl : ∀ x : T.real, '\n' ∉ (T.put x).data := by
    intro x hx
    have h := (hput x).2 '\n' hx
    exact absurd h (by decide)
  have hword : ∀ x : T.real, tokens (T.put x).data = [(T.put x).data] :=
    fun x => tokens_word _ (hput x).2 (hput x).1
  constructor
  · have h := readMatrix_writeMatrix T (putReal T) (readReal T get)
      (fun x => [(T.put x).data]) rt (fun x => hword x)
      (by intro x rest; simp [readReal, hget])
      hnl N buffer header fs filepath dest hfile
    refine ⟨h.1, fun i hi => ?_⟩
    have hv : (loadMatrixFromFile_real T get fs filepath N dest).2 i = rt (buffer i) := by
      have := h.2 i
      rw [if_pos hi] at this
      exact this
    exact ⟨hv, hv ▸ hclose _⟩
  · have h := readMatrix_writeMatrix T (putComplex T) (readComplex T get)
      (fun z => [(T.put z.1).data, (T.put z.2).data]) (fun z => (rt z.1, rt z.2))
      (by
        intro z
        unfold putComplex
        rw [tokens_append_delimiter ' ' (by decide), hword, hword]
        rfl)
      (by intro z rest; simp [readComplex, hget])
      hnl N zbuffer header fs zfilepath zdest hzfile
    refine ⟨h.1, fun i hi => ?_⟩
    have hv : (loadMatrixFromFile_complex T get fs zfilepath N zdest).2 i =
        (rt (zbuffer i).1, rt (zbuffer i).2) := by
      have := h.2 i
      rw [if_pos hi] at this
      exact this
    refine ⟨hv, ?_, ?_⟩
    · rw [hv]; exact hclose _
    · rw [hv]; exact hclose _

/-- Witness of C8: the 2×2 grid `[[1,2],[3,4]]` and its complex companion,
written and loaded again over the digit scalars, where parsing inverts
formatting exactly. -/
theorem C8_write_then_load_witness :
    (∀ x : digitReal.real,
      (digitReal.put x).data ≠ [] ∧ ∀ c ∈ (digitReal.put x).data, isDelimiter c = false) ∧
    (∀ x : digitReal.real, digitGet (digitReal.put x).data = some x) ∧
    files2x2 "real.txt" = some "LX 1 LY 1 DX 5 DY 5 TIME 0\n1 2\n3 4" ∧
    files2x2 "complex.txt" = some "LX 1 LY 1 DX 5 DY 5 TIME 0\n1 2 2 3\n3 4 4 0" ∧
    ((loadMatrixFromFile_real digitReal digitGet files2x2 "real.txt" 2 (fun _ => 0)).1 = true ∧
      ∀ i : Nat, i < 2 * 2 →
        (loadMatrixFromFile_real digitReal digitGet files2x2 "real.txt" 2 (fun _ => 0)).2 i =
          grid2x2 i ∧
        grid2x2 i =
          (loadMatrixFromFile_real digitReal digitGet files2x2 "real.txt" 2 (fun _ => 0)).2 i) ∧
    ((loadMatrixFromFile_complex digitReal digitGet files2x2 "complex.txt" 2
        (fun _ => (0, 0))).1 = true ∧
      ∀ i : Nat, i < 2 * 2 →
        (loadMatrixFromFile_complex digitReal digitGet files2x2 "complex.txt" 2
          (fun _ => (0, 0))).2 i = ((zgrid2x2 i).1, (zgrid2x2 i).2) ∧
        (zgrid2x2 i).1 = ((loadMatrixFromFile_complex digitReal digitGet files2x2
          "complex.txt" 2 (fun _ => (0, 0))).2 i).1 ∧
        (zgrid2x2 i).2 = ((loadMatrixFromFile_complex digitReal digitGet files2x2
          "complex.txt" 2 (fun _ => (0, 0))).2 i).2) :=
  ⟨by decide, by decide, by decide, by decide,
    C8_write_then_load digitReal digitGet (fun x => x) (fun x y => x = y) 2 grid2x2 zgrid2x2
      (Header.Header5 digitReal 1 1 5 5 0) files2x2 "real.txt" "complex.txt" (fun _ => 0)
      (fun _ => (0, 0)) (by decide) (by decide) (fun _ => rfl) (by decide) (by decide)⟩

end FileHandler

end PC3
